import Mathlib

/-!
Shallow embedding of the reshape operator's shape-inference engine from
paddle/fluid/operators/reshape_op.cc:

* `validateLoop` embeds the element-wise validation loop of
  `ReshapeOp::ValidateShape` (lines 68-82): it walks the `shape` attribute,
  rejects negative entries other than -1, records the indices of -1 entries
  (`neg_dims_idx`), checks every 0 entry against the input rank, and records
  whether a dimension copy is needed.
* `validateShape` embeds the whole of `ReshapeOp::ValidateShape`: after the
  loop it enforces at most one -1, returns the cast copy of `shape` with the
  deferred flag when a 0 is present, and otherwise infers the -1 dimension
  from `in_size / (-capacity)` with the exact-division check.
* `ReshapeOp.InferShape` and `ReshapeGradOp.InferShape` embed the two
  `InferShape` methods, with the named-slot presence checks, the empty-shape
  check, the choice between the input dims and the resolved dims, and the
  LoD pass-through, modelled on an explicit context record.

Errors are modelled with one constructor per PADDLE_ENFORCE site, named after
the error taxonomy used by the specification.
-/

/-- Error taxonomy of `ReshapeOp::ValidateShape`: one constructor per
PADDLE_ENFORCE site, carrying the offending position and value where the
C++ message mentions them. -/
inductive ReshapeError where
  /-- `PADDLE_ENFORCE(shape[i] >= 0 || shape[i] == unknown_index)` failed at
  index `i` with value `v`. -/
  | invalidDimension (i : Nat) (v : Int)
  /-- `PADDLE_ENFORCE_LT(i, x_rank)` failed for a `0` entry at index `i`. -/
  | indexOutOfRange (i : Nat)
  /-- `PADDLE_ENFORCE_LE(neg_dims_idx.size(), 1)` failed. -/
  | multipleInferredDims
  /-- `PADDLE_ENFORCE_EQ(inferred_dim * (-capacity), in_size)` failed. -/
  | shapeMismatch
  deriving Repr, DecidableEq

deriving instance DecidableEq for Except

/-- The validation loop of `ReshapeOp::ValidateShape` (reshape_op.cc lines
70-82): scans `shape` starting at index `i`, failing at the first entry that
is negative but not -1 (`invalidDimension`) or that is 0 at an index not
below `xRank` (`indexOutOfRange`); on success returns the list of indices
holding -1 (`neg_dims_idx`) and the `need_dim_copy` flag, which is set as
soon as a (valid) 0 entry is seen. -/
def validateLoop (xRank : Nat) : List Int → Nat → Except ReshapeError (List Nat × Bool)
  | [], _ => Except.ok ([], false)
  | a :: rest, i =>
    if 0 ≤ a ∨ a = -1 then
      if a = -1 then
        match validateLoop xRank rest (i + 1) with
        | Except.ok p => Except.ok (i :: p.1, p.2)
        | Except.error e => Except.error e
      else if a = 0 then
        if i < xRank then
          match validateLoop xRank rest (i + 1) with
          | Except.ok p => Except.ok (p.1, true)
          | Except.error e => Except.error e
        else Except.error (ReshapeError.indexOutOfRange i)
      else validateLoop xRank rest (i + 1)
    else Except.error (ReshapeError.invalidDimension i a)

/-- `ReshapeOp::ValidateShape` (reshape_op.cc lines 59-104). On success the
pair is `(output_shape, need_dim_copy)`: the out-parameter and the returned
bool of the C++ function. `in_size` is `framework::product(input_dim)`,
`x_rank` is `input_dim.size()`, and `capacity` is
`std::accumulate(shape.begin(), shape.end(), 1, std::multiplies<int>())`,
i.e. the product of all entries of `shape` including the -1 sentinel. -/
def validateShape (shape : List Int) (inputDim : List Int) :
    Except ReshapeError (List Int × Bool) :=
  let in_size : Int := inputDim.prod
  let x_rank : Nat := inputDim.length
  match validateLoop x_rank shape 0 with
  | Except.error e => Except.error e
  | Except.ok (negDimsIdx, needDimCopy) =>
    if negDimsIdx.length ≤ 1 then
      if needDimCopy then Except.ok (shape, true)
      else
        match negDimsIdx with
        | [] => Except.ok (shape, false)
        | j :: _ =>
          let capacity : Int := shape.prod
          let inferredDim : Int := in_size.tdiv (-capacity)
          if inferredDim * (-capacity) = in_size then
            Except.ok (shape.set j inferredDim, false)
          else Except.error ReshapeError.shapeMismatch
    else Except.error ReshapeError.multipleInferredDims

/-- Context of `ReshapeOp::InferShape`: presence of the named slots, the
`shape` attribute, the input dims and the input LoD. The LoD is an opaque
descriptor of type `α`; `InferShape` only ever passes it through. -/
structure InferShapeCtx (α : Type) where
  hasX : Bool
  hasOut : Bool
  shapeAttr : List Int
  xDims : List Int
  xLod : α
  deriving Repr, DecidableEq

/-- Errors of the two `InferShape` methods: the slot-presence and
empty-shape PADDLE_ENFORCEs, plus the errors raised inside ValidateShape. -/
inductive InferError where
  /-- `PADDLE_ENFORCE(ctx->HasInput("X"))` failed. -/
  | missingInputX
  /-- `PADDLE_ENFORCE(ctx->HasOutput("Out"))` failed. -/
  | missingOutput
  /-- `PADDLE_ENFORCE(ctx->HasInput(GradVarName("Out")))` failed. -/
  | missingOutGrad
  /-- `PADDLE_ENFORCE(!shape.empty())` failed. -/
  | emptySpec
  /-- An enforce inside `ValidateShape` failed. -/
  | validation (e : ReshapeError)
  deriving Repr, DecidableEq

/-- Result of `ReshapeOp::InferShape`: the dims set on `Out` and the LoD
shared onto `Out`. -/
structure InferShapeResult (α : Type) where
  outDims : List Int
  outLod : α
  deriving Repr, DecidableEq

/-- `ReshapeOp::InferShape` (reshape_op.cc lines 27-56): checks the slots
and the non-emptiness of the `shape` attribute, runs `ValidateShape`, sets
`Out` to the input dims when a runtime dimension copy is needed and to the
resolved shape otherwise, and always shares the input LoD onto `Out`. -/
def ReshapeOp.InferShape {α : Type} (ctx : InferShapeCtx α) :
    Except InferError (InferShapeResult α) :=
  if ctx.hasX = false then Except.error InferError.missingInputX
  else if ctx.hasOut = false then Except.error InferError.missingOutput
  else if ctx.shapeAttr.isEmpty then Except.error InferError.emptySpec
  else
    match validateShape ctx.shapeAttr ctx.xDims with
    | Except.error e => Except.error (InferError.validation e)
    | Except.ok (outputShape, needCopyDim) =>
      Except.ok { outDims := if needCopyDim then ctx.xDims else outputShape,
                  outLod := ctx.xLod }

/-- Context of `ReshapeGradOp::InferShape`: presence of the forwarded input
`X` and of the output gradient `Out@GRAD`, plus the recorded dims of `X`. -/
structure GradInferCtx where
  hasX : Bool
  hasOutGrad : Bool
  xDims : List Int
  deriving Repr, DecidableEq

/-- `ReshapeGradOp::InferShape` (reshape_op.cc lines 168-173): checks that
`X` and `Out@GRAD` are present, then sets `X@GRAD` to the dims of `X`. -/
def ReshapeGradOp.InferShape (ctx : GradInferCtx) : Except InferError (List Int) :=
  if ctx.hasX = false then Except.error InferError.missingInputX
  else if ctx.hasOutGrad = false then Except.error InferError.missingOutGrad
  else Except.ok ctx.xDims

/-! ### Characterization of the validation loop -/

/-- The indices, starting at offset `i`, of the entries of a list equal to
-1; this is the value the loop accumulates in `neg_dims_idx`. -/
def negIdxsOf : List Int → Nat → List Nat
  | [], _ => []
  | a :: rest, i =>
    if a = -1 then i :: negIdxsOf rest (i + 1) else negIdxsOf rest (i + 1)

/-- Whether a list contains a 0 entry; this is the value the loop
accumulates in `need_dim_copy`. -/
def hasZero : List Int → Bool
  | [] => false
  | a :: rest => if a = 0 then true else hasZero rest

lemma hasZero_eq_true_iff (l : List Int) : hasZero l = true ↔ 0 ∈ l := by
  induction l with
  | nil => simp [hasZero]
  | cons a rest ih =>
    by_cases h : a = 0
    · subst h; simp [hasZero]
    · simp [hasZero, h, ih, Ne.symm h]

lemma negIdxsOf_length (l : List Int) : ∀ i : Nat, (negIdxsOf l i).length = l.count (-1) := by
  induction l with
  | nil => intro i; simp [negIdxsOf]
  | cons a rest ih =>
    intro i
    by_cases h : a = -1
    · subst h; simp [negIdxsOf, ih, List.count_cons]
    · simp [negIdxsOf, h, ih, List.count_cons]

lemma negIdxsOf_one_neg (l1 l2 : List Int) (hl1 : (-1 : Int) ∉ l1) (hl2 : (-1 : Int) ∉ l2) :
    ∀ i : Nat, negIdxsOf (l1 ++ -1 :: l2) i = [i + l1.length] := by
  induction l1 with
  | nil =>
    intro i
    have h2 : negIdxsOf l2 (i + 1) = [] := by
      have hlen : (negIdxsOf l2 (i + 1)).length = 0 := by
        rw [negIdxsOf_length]
        exact List.count_eq_zero.mpr hl2
      exact List.length_eq_zero.mp hlen
    simp [negIdxsOf, h2]
  | cons a rest ih =>
    intro i
    have ha : a ≠ -1 := fun h => hl1 (h ▸ List.mem_cons_self a rest)
    have hrest : (-1 : Int) ∉ rest := fun h => hl1 (List.mem_cons_of_mem a h)
    simp only [List.cons_append, negIdxsOf, if_neg ha, List.append_eq]
    rw [ih hrest (i + 1)]
    simp only [List.length_cons, List.cons.injEq, and_true]
    omega

lemma hasZero_eq_false_of_pos (l : List Int) (h : ∀ a ∈ l, a ≠ 0) : hasZero l = false := by
  induction l with
  | nil => rfl
  | cons a rest ih =>
    simp only [hasZero, if_neg (h a (List.mem_cons_self a rest))]
    exact ih fun b hb => h b (List.mem_cons_of_mem a hb)

lemma validateLoop_ok_of_valid (xRank : Nat) :
    ∀ (spec : List Int) (i : Nat),
    (∀ a ∈ spec, 0 ≤ a ∨ a = -1) →
    (∀ j v, spec[j]? = some v → v = 0 → i + j < xRank) →
    validateLoop xRank spec i = Except.ok (negIdxsOf spec i, hasZero spec) := by
  intro spec
  induction spec with
  | nil => intro i _ _; rfl
  | cons a rest ih =>
    intro i h1 h2
    have ha : 0 ≤ a ∨ a = -1 := h1 a (List.mem_cons_self a rest)
    have h1r : ∀ b ∈ rest, 0 ≤ b ∨ b = -1 := fun b hb => h1 b (List.mem_cons_of_mem a hb)
    have h2r : ∀ j v, rest[j]? = some v → v = 0 → (i + 1) + j < xRank := by
      intro j v hj hv
      have := h2 (j + 1) v (by simpa using hj) hv
      omega
    simp only [validateLoop]
    rw [if_pos ha]
    by_cases hA : a = -1
    · rw [if_pos hA, ih (i + 1) h1r h2r]
      subst hA
      simp [negIdxsOf, hasZero]
    · rw [if_neg hA]
      by_cases hZ : a = 0
      · have hiz : i < xRank := by
          have := h2 0 a (by simp) hZ
          omega
        rw [if_pos hZ, if_pos hiz, ih (i + 1) h1r h2r]
        subst hZ
        simp [negIdxsOf, hasZero]
      · rw [if_neg hZ, ih (i + 1) h1r h2r]
        simp [negIdxsOf, hasZero, hA, hZ]

lemma validateLoop_ok_inv (xRank : Nat) :
    ∀ (spec : List Int) (i : Nat) (p : List Nat × Bool),
    validateLoop xRank spec i = Except.ok p →
    (∀ a ∈ spec, 0 ≤ a ∨ a = -1) ∧ p.1 = negIdxsOf spec i ∧ p.2 = hasZero spec ∧
    (∀ j v, spec[j]? = some v → v = 0 → i + j < xRank) := by
  intro spec
  induction spec with
  | nil =>
    intro i p h
    simp only [validateLoop, Except.ok.injEq] at h
    refine ⟨by simp, ?_, ?_, by simp⟩
    · rw [← h]
      rfl
    · rw [← h]
      rfl
  | cons a rest ih =>
    intro i p h
    simp only [validateLoop] at h
    by_cases ha : 0 ≤ a ∨ a = -1
    · rw [if_pos ha] at h
      by_cases hA : a = -1
      · rw [if_pos hA] at h
        cases hrec : validateLoop xRank rest (i + 1) with
        | error e => rw [hrec] at h; simp at h
        | ok q =>
          rw [hrec] at h
          simp only [Except.ok.injEq] at h
          obtain ⟨hv, hidx, hz, hb⟩ := ih (i + 1) q hrec
          refine ⟨?_, ?_, ?_, ?_⟩
          · intro b hb2
            rcases List.mem_cons.mp hb2 with rfl | hb3
            · exact ha
            · exact hv b hb3
          · rw [← h]; simp [negIdxsOf, hA, hidx]
          · rw [← h]; simp [hasZero, hA, hz]
          · intro j v hj hv0
            cases j with
            | zero =>
              simp only [List.getElem?_cons_zero, Option.some.injEq] at hj
              rw [← hj, hA] at hv0
              cases hv0
            | succ k =>
              have := hb k v (by simpa using hj) hv0
              omega
      · rw [if_neg hA] at h
        by_cases hZ : a = 0
        · rw [if_pos hZ] at h
          by_cases hi : i < xRank
          · rw [if_pos hi] at h
            cases hrec : validateLoop xRank rest (i + 1) with
            | error e => rw [hrec] at h; simp at h
            | ok q =>
              rw [hrec] at h
              simp only [Except.ok.injEq] at h
              obtain ⟨hv, hidx, hz, hb⟩ := ih (i + 1) q hrec
              refine ⟨?_, ?_, ?_, ?_⟩
              · intro b hb2
                rcases List.mem_cons.mp hb2 with rfl | hb3
                · exact ha
                · exact hv b hb3
              · rw [← h]; simp [negIdxsOf, hA, hidx]
              · rw [← h]; simp [hasZero, hZ]
              · intro j v hj hv0
                cases j with
                | zero => omega
                | succ k =>
                  have := hb k v (by simpa using hj) hv0
                  omega
          · rw [if_neg hi] at h; simp at h
        · rw [if_neg hZ] at h
          obtain ⟨hv, hidx, hz, hb⟩ := ih (i + 1) p h
          refine ⟨?_, ?_, ?_, ?_⟩
          · intro b hb2
            rcases List.mem_cons.mp hb2 with rfl | hb3
            · exact ha
            · exact hv b hb3
          · rw [hidx]; simp [negIdxsOf, hA]
          · rw [hz]; simp [hasZero, hZ]
          · intro j v hj hv0
            cases j with
            | zero =>
              simp only [List.getElem?_cons_zero, Option.some.injEq] at hj
              rw [← hj] at hv0
              exact absurd hv0 hZ
            | succ k =>
              have := hb k v (by simpa using hj) hv0
              omega
    · rw [if_neg ha] at h; simp at h

lemma validateLoop_err_at_zero (xRank : Nat) (post : List Int) :
    ∀ (pre : List Int) (i : Nat),
    (∀ a ∈ pre, 0 ≤ a ∨ a = -1) →
    (∀ j v, pre[j]? = some v → v = 0 → i + j < xRank) →
    xRank ≤ i + pre.length →
    validateLoop xRank (pre ++ 0 :: post) i =
      Except.error (ReshapeError.indexOutOfRange (i + pre.length)) := by
  intro pre
  induction pre with
  | nil =>
    intro i _ _ hle
    have hi : ¬ i < xRank := by simpa using hle
    simp [validateLoop, hi]
  | cons a pre ih =>
    intro i h1 h2 hle
    have ha : 0 ≤ a ∨ a = -1 := h1 a (List.mem_cons_self a pre)
    have h1r : ∀ b ∈ pre, 0 ≤ b ∨ b = -1 := fun b hb => h1 b (List.mem_cons_of_mem a hb)
    have h2r : ∀ j v, pre[j]? = some v → v = 0 → (i + 1) + j < xRank := by
      intro j v hj hv
      have := h2 (j + 1) v (by simpa using hj) hv
      omega
    have hler : xRank ≤ (i + 1) + pre.length := by
      simp only [List.length_cons] at hle
      omega
    have hrec := ih (i + 1) h1r h2r hler
    have hidx : (i + 1) + pre.length = i + (a :: pre).length := by
      simp only [List.length_cons]
      omega
    simp only [List.cons_append, validateLoop, List.append_eq]
    rw [if_pos ha]
    by_cases hA : a = -1
    · rw [if_pos hA, hrec, hidx]
    · rw [if_neg hA]
      by_cases hZ : a = 0
      · have hiz : i < xRank := by
          have := h2 0 a (by simp) hZ
          omega
        rw [if_pos hZ, if_pos hiz, hrec, hidx]
      · rw [if_neg hZ, hrec, hidx]

lemma validateLoop_err_at_invalid (xRank : Nat) (post : List Int) (v : Int)
    (hv : v < 0) (hv2 : v ≠ -1) :
    ∀ (pre : List Int) (i : Nat),
    (∀ a ∈ pre, 0 ≤ a ∨ a = -1) →
    (∀ j w, pre[j]? = some w → w = 0 → i + j < xRank) →
    validateLoop xRank (pre ++ v :: post) i =
      Except.error (ReshapeError.invalidDimension (i + pre.length) v) := by
  intro pre
  induction pre with
  | nil =>
    intro i _ _
    have hcond : ¬ (0 ≤ v ∨ v = -1) := by
      push_neg
      exact ⟨by omega, hv2⟩
    simp only [List.nil_append, validateLoop]
    rw [if_neg hcond]
    simp
  | cons a pre ih =>
    intro i h1 h2
    have ha : 0 ≤ a ∨ a = -1 := h1 a (List.mem_cons_self a pre)
    have h1r : ∀ b ∈ pre, 0 ≤ b ∨ b = -1 := fun b hb => h1 b (List.mem_cons_of_mem a hb)
    have h2r : ∀ j w, pre[j]? = some w → w = 0 → (i + 1) + j < xRank := by
      intro j w hj hw
      have := h2 (j + 1) w (by simpa using hj) hw
      omega
    have hrec := ih (i + 1) h1r h2r
    have hidx : (i + 1) + pre.length = i + (a :: pre).length := by
      simp only [List.length_cons]
      omega
    simp only [List.cons_append, validateLoop, List.append_eq]
    rw [if_pos ha]
    by_cases hA : a = -1
    · rw [if_pos hA, hrec, hidx]
    · rw [if_neg hA]
      by_cases hZ : a = 0
      · have hiz : i < xRank := by
          have := h2 0 a (by simp) hZ
          omega
        rw [if_pos hZ, if_pos hiz, hrec, hidx]
      · rw [if_neg hZ, hrec, hidx]

lemma validateShape_of_loop_err (shape inputDim : List Int) (e : ReshapeError)
    (h : validateLoop inputDim.length shape 0 = Except.error e) :
    validateShape shape inputDim = Except.error e := by
  simp only [validateShape, h]

lemma validateShape_ok_loop_ok (shape inputDim : List Int) (r : List Int × Bool)
    (h : validateShape shape inputDim = Except.ok r) :
    ∃ p, validateLoop inputDim.length shape 0 = Except.ok p := by
  simp only [validateShape] at h
  cases hrec : validateLoop inputDim.length shape 0 with
  | error e => rw [hrec] at h; simp at h
  | ok p => exact ⟨p, rfl⟩

/-! ### Product and substitution facts -/

lemma prod_append_neg_one (l1 l2 : List Int) :
    (l1 ++ -1 :: l2).prod = -((l1 ++ l2).prod) := by
  simp only [List.prod_append, List.prod_cons]
  ring

lemma prod_append_cons (l1 l2 : List Int) (v : Int) :
    (l1 ++ v :: l2).prod = v * (l1 ++ l2).prod := by
  simp only [List.prod_append, List.prod_cons]
  ring

lemma set_append_cons (l2 : List Int) (a v : Int) :
    ∀ l1 : List Int, (l1 ++ a :: l2).set l1.length v = l1 ++ v :: l2 := by
  intro l1
  induction l1 with
  | nil => rfl
  | cons b l1 ih =>
    simp only [List.cons_append, List.length_cons, List.set_cons_succ, ih]

lemma not_mem_of_forall_pos (l : List Int) (h : ∀ a ∈ l, 0 < a) : (-1 : Int) ∉ l := by
  intro hmem
  have := h (-1) hmem
  omega

lemma count_neg_one_eq_one (spec : List Int) (h : spec.count (-1) = 1) :
    ∃ l1 l2, spec = l1 ++ -1 :: l2 ∧ (-1 : Int) ∉ l1 ∧ (-1 : Int) ∉ l2 := by
  induction spec with
  | nil => simp at h
  | cons a rest ih =>
    by_cases hA : a = -1
    · subst hA
      have hr : rest.count (-1) = 0 := by
        rw [List.count_cons_self] at h
        omega
      exact ⟨[], rest, rfl, by simp, List.count_eq_zero.mp hr⟩
    · have hr : rest.count (-1) = 1 := by
        rw [List.count_cons_of_ne (fun hc => hA hc.symm)] at h
        exact h
      obtain ⟨l1, l2, heq, h1, h2⟩ := ih hr
      exact ⟨a :: l1, l2, by rw [heq, List.cons_append], by
        intro hmem
        rcases List.mem_cons.mp hmem with hc | hc
        · exact hA hc.symm
        · exact h1 hc, h2⟩

lemma prod_neg_of_one_neg_one (spec : List Int)
    (h1 : ∀ a ∈ spec, 0 < a ∨ a = -1) (h2 : spec.count (-1) = 1) :
    0 < -(spec.prod) := by
  obtain ⟨l1, l2, rfl, hm1, hm2⟩ := count_neg_one_eq_one spec h2
  rw [prod_append_neg_one, neg_neg]
  apply List.prod_pos
  intro a ha
  rcases List.mem_append.mp ha with hc | hc
  · rcases h1 a (by simp [hc]) with hp | hp
    · exact hp
    · exact absurd (hp ▸ hc) hm1
  · rcases h1 a (by simp [hc]) with hp | hp
    · exact hp
    · exact absurd (hp ▸ hc) hm2

/-- Central computation of `ValidateShape` on a shape attribute holding
exactly one -1 and otherwise positive entries: the loop succeeds with
`neg_dims_idx = [l1.length]` and no dimension copy, `capacity` is
minus the product of the positive entries, and the outcome is decided by
the exact-division check. -/
lemma validateShape_one_neg_one (l1 l2 input : List Int)
    (h1 : ∀ a ∈ l1, 0 < a) (h2 : ∀ a ∈ l2, 0 < a) :
    validateShape (l1 ++ -1 :: l2) input =
      if (input.prod).tdiv ((l1 ++ l2).prod) * ((l1 ++ l2).prod) = input.prod
      then Except.ok (l1 ++ (input.prod).tdiv ((l1 ++ l2).prod) :: l2, false)
      else Except.error ReshapeError.shapeMismatch := by
  have hpos : ∀ a ∈ l1 ++ -1 :: l2, 0 < a ∨ a = -1 := by
    intro a ha
    rcases List.mem_append.mp ha with hc | hc
    · exact Or.inl (h1 a hc)
    · rcases List.mem_cons.mp hc with rfl | hc2
      · exact Or.inr rfl
      · exact Or.inl (h2 a hc2)
  have hvalid : ∀ a ∈ l1 ++ -1 :: l2, 0 ≤ a ∨ a = -1 := by
    intro a ha
    rcases hpos a ha with hp | hp
    · exact Or.inl (le_of_lt hp)
    · exact Or.inr hp
  have hzb : ∀ j v, (l1 ++ -1 :: l2)[j]? = some v → v = 0 → 0 + j < input.length := by
    intro j v hj hv
    subst hv
    rcases hpos 0 (List.getElem?_mem hj) with hp | hp
    · exact absurd hp (by omega)
    · exact absurd hp (by omega)
  have hloop := validateLoop_ok_of_valid input.length (l1 ++ -1 :: l2) 0 hvalid hzb
  have hni : negIdxsOf (l1 ++ -1 :: l2) 0 = [0 + l1.length] :=
    negIdxsOf_one_neg l1 l2 (not_mem_of_forall_pos l1 h1) (not_mem_of_forall_pos l2 h2) 0
  have hz : hasZero (l1 ++ -1 :: l2) = false := by
    apply hasZero_eq_false_of_pos
    intro a ha
    rcases hpos a ha with hp | hp
    · omega
    · omega
  rw [hni, hz] at hloop
  have hcap : -((l1 ++ -1 :: l2).prod) = (l1 ++ l2).prod := by
    rw [prod_append_neg_one, neg_neg]
  simp only [validateShape, hloop, List.length_singleton, le_refl, if_true,
    Bool.false_eq_true, if_false, hcap]
  rw [Nat.zero_add, set_append_cons]

/-- `ValidateShape` on an all-positive shape attribute (no 0, no -1): the
attribute is returned verbatim with no dimension copy and no product check. -/
lemma validateShape_all_pos (spec input : List Int) (h : ∀ a ∈ spec, 0 < a) :
    validateShape spec input = Except.ok (spec, false) := by
  have hvalid : ∀ a ∈ spec, 0 ≤ a ∨ a = -1 := fun a ha => Or.inl (le_of_lt (h a ha))
  have hzb : ∀ j v, spec[j]? = some v → v = 0 → 0 + j < input.length := by
    intro j v hj hv
    subst hv
    have := h 0 (List.getElem?_mem hj)
    omega
  have hloop := validateLoop_ok_of_valid input.length spec 0 hvalid hzb
  have hni : negIdxsOf spec 0 = [] := by
    have hlen : (negIdxsOf spec 0).length = 0 := by
      rw [negIdxsOf_length]
      exact List.count_eq_zero.mpr (not_mem_of_forall_pos spec h)
    exact List.length_eq_zero.mp hlen
  have hz : hasZero spec = false := by
    apply hasZero_eq_false_of_pos
    intro a ha
    have := h a ha
    omega
  rw [hni, hz] at hloop
  simp [validateShape, hloop]

/-- Bridge from the bounded form of the zero-bound hypothesis (decidable on
concrete inputs) to the indexed form used by the loop lemmas. -/
lemma zero_bound_of_ball (spec : List Int) (m : Nat)
    (h : ∀ j < spec.length, spec[j]? = some 0 → j < m) :
    ∀ j v, spec[j]? = some v → v = 0 → 0 + j < m := by
  intro j v hj hv
  subst hv
  have hjl : j < spec.length := by
    by_contra hc
    rw [List.getElem?_eq_none (by omega)] at hj
    cases hj
  have := h j hjl hj
  omega

/-! ### Claim theorems -/

/-- C1 (counterexample): on InputShape [2,4,6] (48 elements) and the fully
explicit ShapeSpec [6,9] (product 54), ValidateShape returns the spec
verbatim as a fully static (non-deferred) result and raises no
ShapeMismatchError, even though the products differ. This refutes the claim
that a fully static result always conserves the element product and that a
mismatching explicit spec fails. -/
theorem C1_counterexample :
    validateShape [6, 9] [2, 4, 6] = Except.ok ([6, 9], false) ∧
    List.prod [(6 : Int), 9] ≠ List.prod [2, 4, 6] := by decide

/-- C1 (amended): the static product invariant holds exactly on the paths
where a -1 is present: for a ShapeSpec of the form l1 ++ [-1] ++ l2 with all
other entries positive, any fully static success conserves the element
product; but a fully explicit all-positive ShapeSpec is returned verbatim
with no product check, so no ShapeMismatchError is raised in that case. -/
theorem C1_static_product_invariant :
    (∀ (l1 l2 input out : List Int), (∀ a ∈ l1, 0 < a) → (∀ a ∈ l2, 0 < a) →
      validateShape (l1 ++ -1 :: l2) input = Except.ok (out, false) →
      out.prod = input.prod) ∧
    (∀ (spec input : List Int), (∀ a ∈ spec, 0 < a) →
      validateShape spec input = Except.ok (spec, false)) := by
  constructor
  · intro l1 l2 input out h1 h2 hok
    rw [validateShape_one_neg_one l1 l2 input h1 h2] at hok
    by_cases hdiv :
        (input.prod).tdiv ((l1 ++ l2).prod) * ((l1 ++ l2).prod) = input.prod
    · rw [if_pos hdiv] at hok
      simp only [Except.ok.injEq, Prod.mk.injEq] at hok
      obtain ⟨hout, -⟩ := hok
      rw [← hout, prod_append_cons]
      exact hdiv
    · rw [if_neg hdiv] at hok
      simp at hok
  · intro spec input h
    exact validateShape_all_pos spec input h

/-- C1 witness: a concrete fully static resolution through a -1 slot,
InputShape [2,4,6], ShapeSpec [2,3,-1,2], conserves the product. -/
theorem C1_witness : List.prod [(2 : Int), 3, 4, 2] = List.prod [2, 4, 6] :=
  C1_static_product_invariant.1 [2, 3] [2] [2, 4, 6] [2, 3, 4, 2]
    (by decide) (by decide) (by decide)

/-- C2: for a ShapeSpec holding exactly one -1 and otherwise positive
entries (hence no 0), with capacity the product of the positive entries,
resolution succeeds with the truncated quotient of the input's element count
by capacity substituted at the -1 position and deferred = false exactly when
inferredDim * capacity reproduces the element count; otherwise it fails with
ShapeMismatchError. -/
theorem C2_single_inferred_dim (l1 l2 input : List Int)
    (h1 : ∀ a ∈ l1, 0 < a) (h2 : ∀ a ∈ l2, 0 < a) :
    ((input.prod).tdiv ((l1 ++ l2).prod) * ((l1 ++ l2).prod) = input.prod →
      validateShape (l1 ++ -1 :: l2) input =
        Except.ok (l1 ++ (input.prod).tdiv ((l1 ++ l2).prod) :: l2, false)) ∧
    ((input.prod).tdiv ((l1 ++ l2).prod) * ((l1 ++ l2).prod) ≠ input.prod →
      validateShape (l1 ++ -1 :: l2) input = Except.error ReshapeError.shapeMismatch) := by
  constructor
  · intro hdiv
    rw [validateShape_one_neg_one l1 l2 input h1 h2, if_pos hdiv]
  · intro hdiv
    rw [validateShape_one_neg_one l1 l2 input h1 h2, if_neg hdiv]

/-- C2 witness: Scenario B, InputShape [2,4,6], ShapeSpec [2,3,-1,2],
capacity 12, inferred dimension 48/12 = 4. -/
theorem C2_witness :
    validateShape [2, 3, -1, 2] [2, 4, 6] = Except.ok ([2, 3, 4, 2], false) :=
  (C2_single_inferred_dim [2, 3] [2] [2, 4, 6] (by decide) (by decide)).1 (by decide)

/-- C3: a ShapeSpec containing a 0 (all entries positive, 0 or -1, every 0
at an index below the input rank, at most one -1) resolves without error to
a verbatim copy of the spec with the 0 and -1 markers left literal, with
deferred = true; in particular no ShapeMismatchError is possible since the
capacity check is skipped. -/
theorem C3_zero_defers (spec input : List Int)
    (h1 : ∀ a ∈ spec, 0 ≤ a ∨ a = -1)
    (h2 : ∀ j < spec.length, spec[j]? = some 0 → j < input.length)
    (h3 : (0 : Int) ∈ spec) (h4 : spec.count (-1) ≤ 1) :
    validateShape spec input = Except.ok (spec, true) := by
  have hloop := validateLoop_ok_of_valid input.length spec 0 h1
    (zero_bound_of_ball spec input.length h2)
  have hz : hasZero spec = true := (hasZero_eq_true_iff spec).mpr h3
  rw [hz] at hloop
  have hlen : (negIdxsOf spec 0).length ≤ 1 := by
    rw [negIdxsOf_length]
    exact h4
  simp [validateShape, hloop, hlen]

/-- C3 witness: Scenario C, InputShape [2,4,6], ShapeSpec [-1,0,3,2]: output
keeps the literal markers and is flagged deferred, even though 3*2 does not
divide 48 evenly against the copied dimension until runtime. -/
theorem C3_witness :
    validateShape [-1, 0, 3, 2] [2, 4, 6] = Except.ok ([-1, 0, 3, 2], true) :=
  C3_zero_defers [-1, 0, 3, 2] [2, 4, 6] (by decide) (by decide) (by decide) (by decide)

/-- C4 (counterexample): ShapeSpec [-1,-1,-2] contains two -1 entries, yet
ValidateShape fails with InvalidDimensionError at index 2 (the -2 entry,
checked inside the element loop) and not with MultipleInferredDimsError,
refuting "regardless of the other values in the spec". -/
theorem C4_counterexample :
    validateShape [-1, -1, -2] [2] = Except.error (ReshapeError.invalidDimension 2 (-2)) ∧
    validateShape [-1, -1, -2] [2] ≠ Except.error ReshapeError.multipleInferredDims := by
  decide

/-- C4 (amended): for a ShapeSpec whose entries all pass the element checks
(each entry nonnegative or -1, each 0 at an index below the input rank) and
which contains two or more -1 entries, ValidateShape fails with
MultipleInferredDimsError, before any capacity or inference computation. -/
theorem C4_multiple_inferred_dims (spec input : List Int)
    (h1 : ∀ a ∈ spec, 0 ≤ a ∨ a = -1)
    (h2 : ∀ j < spec.length, spec[j]? = some 0 → j < input.length)
    (h3 : 2 ≤ spec.count (-1)) :
    validateShape spec input = Except.error ReshapeError.multipleInferredDims := by
  have hloop := validateLoop_ok_of_valid input.length spec 0 h1
    (zero_bound_of_ball spec input.length h2)
  have hlen : ¬ (negIdxsOf spec 0).length ≤ 1 := by
    rw [negIdxsOf_length]
    omega
  simp [validateShape, hloop, hlen]

/-- C4 witness: Scenario E, ShapeSpec [-1,-1]. -/
theorem C4_witness :
    validateShape [-1, -1] [2, 3] = Except.error ReshapeError.multipleInferredDims :=
  C4_multiple_inferred_dims [-1, -1] [2, 3] (by decide) (by decide) (by decide)

/-- C5 (counterexample): ShapeSpec [-2,5,0] on InputShape [2] has a 0 at
index 2 ≥ rank 1, yet ValidateShape fails with InvalidDimensionError at
index 0 (the -2 entry comes first in the single scan), not with
IndexOutOfRangeError. -/
theorem C5_counterexample :
    validateShape [-2, 5, 0] [2] = Except.error (ReshapeError.invalidDimension 0 (-2)) ∧
    validateShape [-2, 5, 0] [2] ≠ Except.error (ReshapeError.indexOutOfRange 2) := by
  decide

/-- C5 (amended): when the first out-of-range 0 is preceded only by clean
entries (nonnegative or -1, with every earlier 0 below the input rank),
ValidateShape fails with IndexOutOfRangeError at that position; and a 0 at
index i is accepted (resolution succeeds) only if i is below the input
rank. -/
theorem C5_zero_out_of_range :
    (∀ (pre post input : List Int),
      (∀ a ∈ pre, 0 ≤ a ∨ a = -1) →
      (∀ j < pre.length, pre[j]? = some 0 → j < input.length) →
      input.length ≤ pre.length →
      validateShape (pre ++ 0 :: post) input =
        Except.error (ReshapeError.indexOutOfRange pre.length)) ∧
    (∀ (spec input : List Int) (r : List Int × Bool) (i : Nat),
      validateShape spec input = Except.ok r → spec[i]? = some 0 →
      i < input.length) := by
  constructor
  · intro pre post input h1 h2 hle
    have hloop := validateLoop_err_at_zero input.length post pre 0 h1
      (zero_bound_of_ball pre input.length h2) (by omega)
    rw [Nat.zero_add] at hloop
    exact validateShape_of_loop_err _ _ _ hloop
  · intro spec input r i hok hi
    obtain ⟨p, hp⟩ := validateShape_ok_loop_ok spec input r hok
    obtain ⟨-, -, -, hb⟩ := validateLoop_ok_inv input.length spec 0 p hp
    have := hb i 0 hi rfl
    omega

/-- C5 witness: Scenario D, InputShape [2,3,4], ShapeSpec [2,3,2,0], 0 at
index 3 ≥ rank 3. -/
theorem C5_witness :
    validateShape [2, 3, 2, 0] [2, 3, 4] = Except.error (ReshapeError.indexOutOfRange 3) :=
  C5_zero_out_of_range.1 [2, 3, 2] [] [2, 3, 4] (by decide) (by decide) (by decide)

/-- C6 (counterexample): ShapeSpec [0,-2] on a rank-0 input contains both an
out-of-range 0 (index 0 ≥ 0) and an invalid negative (-2 at index 1), and
the 0 appears first: ValidateShape fails with IndexOutOfRangeError, not
InvalidDimensionError, refuting "regardless of which offending element
appears first". -/
theorem C6_counterexample :
    validateShape [0, -2] ([] : List Int) = Except.error (ReshapeError.indexOutOfRange 0) ∧
    validateShape [0, -2] ([] : List Int) ≠
      Except.error (ReshapeError.invalidDimension 1 (-2)) := by
  decide

/-- C6 (amended): the element-validity check (rule 2) and the 0-index bound
check (rule 3) are interleaved in one left-to-right scan, the first
offending element deciding the error: when an invalid negative entry is
preceded only by clean entries, ValidateShape fails with
InvalidDimensionError at its position, even if an out-of-range 0 occurs
later in the spec. -/
theorem C6_first_offending_element (pre post input : List Int) (v : Int)
    (h1 : ∀ a ∈ pre, 0 ≤ a ∨ a = -1)
    (h2 : ∀ j < pre.length, pre[j]? = some 0 → j < input.length)
    (hv : v < 0) (hv2 : v ≠ -1) :
    validateShape (pre ++ v :: post) input =
      Except.error (ReshapeError.invalidDimension pre.length v) := by
  have hloop := validateLoop_err_at_invalid input.length post v hv hv2 pre 0 h1
    (zero_bound_of_ball pre input.length h2)
  rw [Nat.zero_add] at hloop
  exact validateShape_of_loop_err _ _ _ hloop

/-- C6 witness: ShapeSpec [2,-7,0] on InputShape [5]: the invalid -7 at
index 1 precedes the out-of-range 0 at index 2, and InvalidDimensionError
at index 1 is raised. -/
theorem C6_witness :
    validateShape [2, -7, 0] [5] = Except.error (ReshapeError.invalidDimension 1 (-7)) :=
  C6_first_offending_element [2] [0] [5] (-7) (by decide) (by decide) (by decide) (by decide)

/-- C7: the gradient InferShape sets the input-gradient shape to exactly the
recorded dims of X, with no placeholder logic, so after any successful
forward resolution the gradient pass restores exactly the original
InputShape (round-trip law); and it fails when X or Out@GRAD was not
forwarded. -/
theorem C7_gradient_restores_input_shape :
    (∀ (α : Type) (ctx : InferShapeCtx α) (r : InferShapeResult α) (g : GradInferCtx),
      ReshapeOp.InferShape ctx = Except.ok r →
      g.hasX = true → g.hasOutGrad = true → g.xDims = ctx.xDims →
      ReshapeGradOp.InferShape g = Except.ok ctx.xDims) ∧
    (∀ g : GradInferCtx, g.hasX = false ∨ g.hasOutGrad = false →
      ∃ e, ReshapeGradOp.InferShape g = Except.error e) := by
  constructor
  · intro α ctx r g _ hx hg hdims
    simp [ReshapeGradOp.InferShape, hx, hg, hdims]
  · intro g hg
    rcases hg with hx | ho
    · exact ⟨InferError.missingInputX, by simp [ReshapeGradOp.InferShape, hx]⟩
    · by_cases hx : g.hasX = false
      · exact ⟨InferError.missingInputX, by simp [ReshapeGradOp.InferShape, hx]⟩
      · exact ⟨InferError.missingOutGrad, by simp [ReshapeGradOp.InferShape, hx, ho]⟩

/-- C7 witness: a successful forward resolution ([2,4,6] reshaped by [6,8])
followed by the gradient pass on the same recorded input dims restores
[2,4,6]. -/
theorem C7_witness :
    ReshapeGradOp.InferShape { hasX := true, hasOutGrad := true, xDims := [2, 4, 6] } =
      Except.ok [2, 4, 6] :=
  C7_gradient_restores_input_shape.1 Nat
    { hasX := true, hasOut := true, shapeAttr := [6, 8], xDims := [2, 4, 6], xLod := 0 }
    { outDims := [6, 8], outLod := 0 }
    { hasX := true, hasOutGrad := true, xDims := [2, 4, 6] }
    (by decide) rfl rfl rfl

/-- C8: every successful run of ReshapeOp InferShape, static or deferred,
copies the input LoD descriptor onto the output unchanged, whatever the
outcome of the shape computation was. -/
theorem C8_lod_passthrough (α : Type) (ctx : InferShapeCtx α) (r : InferShapeResult α)
    (h : ReshapeOp.InferShape ctx = Except.ok r) : r.outLod = ctx.xLod := by
  simp only [ReshapeOp.InferShape] at h
  by_cases hx : ctx.hasX = false
  · rw [if_pos hx] at h
    simp at h
  · rw [if_neg hx] at h
    by_cases ho : ctx.hasOut = false
    · rw [if_pos ho] at h
      simp at h
    · rw [if_neg ho] at h
      by_cases he : ctx.shapeAttr.isEmpty
      · rw [if_pos he] at h
        simp at h
      · rw [if_neg he] at h
        cases hv : validateShape ctx.shapeAttr ctx.xDims with
        | error e =>
          rw [hv] at h
          simp at h
        | ok p =>
          obtain ⟨outputShape, needCopyDim⟩ := p
          rw [hv] at h
          simp only [Except.ok.injEq] at h
          rw [← h]

/-- C8 witness: a concrete deferred resolution (shape [-1,0,3,2]) carries
the LoD handle 5 from input to output. -/
theorem C8_witness :
    ({ outDims := [2, 4, 6], outLod := 5 } : InferShapeResult Nat).outLod = 5 :=
  C8_lod_passthrough Nat
    { hasX := true, hasOut := true, shapeAttr := [-1, 0, 3, 2], xDims := [2, 4, 6], xLod := 5 }
    { outDims := [2, 4, 6], outLod := 5 } (by decide)

/-- C9: whenever ValidateShape reports that a dimension copy is needed
(deferred flag true), ReshapeOp InferShape sets the output dims to the input
dims of X as a temporary placeholder, discarding the marker-bearing copy
that ValidateShape produced in its out-parameter. -/
theorem C9_deferred_uses_input_dims (α : Type) (ctx : InferShapeCtx α) (out : List Int)
    (hx : ctx.hasX = true) (ho : ctx.hasOut = true)
    (hv : validateShape ctx.shapeAttr ctx.xDims = Except.ok (out, true)) :
    ReshapeOp.InferShape ctx =
      Except.ok { outDims := ctx.xDims, outLod := ctx.xLod } := by
  have hne : ctx.shapeAttr.isEmpty = false := by
    cases hA : ctx.shapeAttr.isEmpty
    · rfl
    · have he : ctx.shapeAttr = [] := List.isEmpty_iff.mp hA
      rw [he] at hv
      have hcomp : validateShape ([] : List Int) ctx.xDims = Except.ok ([], false) := rfl
      rw [hcomp] at hv
      simp at hv
  simp [ReshapeOp.InferShape, hx, ho, hne, hv]

/-- C9 witness: Scenario C context (shape [-1,0,3,2] over input [2,4,6]):
the output dims are the input dims [2,4,6], not the marker copy
[-1,0,3,2]. -/
theorem C9_witness :
    ReshapeOp.InferShape
      { hasX := true, hasOut := true, shapeAttr := [-1, 0, 3, 2],
        xDims := [2, 4, 6], xLod := (3 : Nat) } =
      Except.ok { outDims := [2, 4, 6], outLod := 3 } :=
  C9_deferred_uses_input_dims Nat
    { hasX := true, hasOut := true, shapeAttr := [-1, 0, 3, 2],
      xDims := [2, 4, 6], xLod := 3 }
    [-1, 0, 3, 2] rfl rfl (by decide)

/-- C10: on every path that reaches the inferred-dimension division (the
loop succeeded with no dimension copy, and neg_dims_idx is nonempty after
passing the at-most-one check), the divisor -capacity is strictly positive:
the spec then holds no 0, all non-(-1) entries are positive, and exactly one
-1 is present, making the accumulated product strictly negative. -/
theorem C10_division_safe (spec input : List Int) (idxs : List Nat)
    (h : validateLoop input.length spec 0 = Except.ok (idxs, false))
    (hle : idxs.length ≤ 1) (hne : idxs ≠ []) :
    0 < -(spec.prod) := by
  obtain ⟨hvalid, hidx, hz, -⟩ := validateLoop_ok_inv input.length spec 0 (idxs, false) h
  have hidx2 : idxs = negIdxsOf spec 0 := hidx
  have hz2 : false = hasZero spec := hz
  have hcount : spec.count (-1) = 1 := by
    have hlen : idxs.length = spec.count (-1) := by
      rw [hidx2]
      exact negIdxsOf_length spec 0
    have hpos : idxs.length ≠ 0 := fun hc => hne (List.length_eq_zero.mp hc)
    omega
  have hnz : ∀ a ∈ spec, a ≠ 0 := by
    intro a ha hc
    have hmem : hasZero spec = true := (hasZero_eq_true_iff spec).mpr (hc ▸ ha)
    rw [← hz2] at hmem
    cases hmem
  have hposall : ∀ a ∈ spec, 0 < a ∨ a = -1 := by
    intro a ha
    rcases hvalid a ha with hp | hp
    · exact Or.inl (lt_of_le_of_ne hp (fun hc => hnz a ha hc.symm))
    · exact Or.inr hp
  exact prod_neg_of_one_neg_one spec hposall hcount

/-- C10 witness: the loop on shape [2,3,-1,2] over a rank-3 input reaches
the division with neg_dims_idx = [2] and divisor 12 > 0. -/
theorem C10_witness : 0 < -(List.prod [(2 : Int), 3, -1, 2]) :=
  C10_division_safe [2, 3, -1, 2] [2, 4, 6] [2] (by decide) (by decide) (by decide)
